import Mathlib

/-!
Verification development for the ven-control agent monitoring system:
a shallow embedding of the Agent Collector (gateway links, configuration
loading, request/response handling, polling splits) and of the Session
Archive Analyzer (cost/token aggregation and delegation forests), with
theorems settling the specification claims against the code.

JavaScript strings are embedded as Lean `String` values; the string
operations the source uses (`startsWith`, `endsWith`, `includes`,
`split`, `slice`) are modelled by structurally recursive functions over
the character list `String.data`, so that every definition evaluates by
kernel reduction.  JavaScript numbers carrying money/token amounts are
embedded as rationals, timestamps as integers.
-/

/-- Characterwise test that `l₁` is a leading segment of `l₂`
(model of the comparison underlying JS `String.prototype.startsWith`). -/
def chPre : List Char → List Char → Bool
  | [], _ => true
  | _ :: _, [] => false
  | a :: as, b :: bs => a == b && chPre as bs

/-- Characterwise test that `l₁` is a trailing segment of `l₂`
(model of JS `String.prototype.endsWith`). -/
def chSuf (l₁ l₂ : List Char) : Bool := chPre l₁.reverse l₂.reverse

/-- Characterwise substring test (model of JS `String.prototype.includes`). -/
def chSub (needle : List Char) : List Char → Bool
  | [] => chPre needle []
  | c :: t => chPre needle (c :: t) || chSub needle t

/-- Splitting on a separator character, accumulator style
(model of JS `String.prototype.split` with a one-character separator). -/
def chSplitAux (sep : Char) : List Char → List Char → List (List Char)
  | [], acc => [acc.reverse]
  | c :: rest, acc =>
    if c == sep then acc.reverse :: chSplitAux sep rest []
    else chSplitAux sep rest (c :: acc)

/-- JS `s.startsWith(p)`. -/
def jsStartsWith (s p : String) : Bool := chPre p.data s.data

/-- JS `s.endsWith(p)`. -/
def jsEndsWith (s p : String) : Bool := chSuf p.data s.data

/-- JS `s.includes(p)`. -/
def jsIncludes (s p : String) : Bool := chSub p.data s.data

/-- JS `s.split(sep)` for a one-character separator. -/
def jsSplit (sep : Char) (s : String) : List String :=
  (chSplitAux sep s.data []).map String.mk

/-- JS `s.slice(0, n)`. -/
def jsTake (n : Nat) (s : String) : String := String.mk (s.data.take n)

/-- Key lookup in an insertion-ordered association list
(model of JS `Map.prototype.get`). -/
def lookupK {β : Type} : List (String × β) → String → Option β
  | [], _ => none
  | (k', v) :: t, k => if k' = k then some v else lookupK t k

/-- Key update in an insertion-ordered association list: replaces the
entry in place when the key exists, otherwise appends it at the end
(model of JS `Map.prototype.set`). -/
def setK {β : Type} : List (String × β) → String → β → List (String × β)
  | [], k, v => [(k, v)]
  | (k', v') :: t, k, v =>
    if k' = k then (k, v) :: t else (k', v') :: setK t k v

/-- The keys of an association list, in insertion order. -/
def keysOf {β : Type} (l : List (String × β)) : List String := l.map Prod.fst

example : jsStartsWith "agent:a:main" "agent:a:" = true := by decide
example : jsStartsWith "agent:b:main" "agent:a:" = false := by decide
example : jsEndsWith "agent:x:main" ":main" = true := by decide
example : jsIncludes "agent:x:subagent:1" ":subagent:" = true := by decide
example : jsSplit ':' "agent:x:subagent:1" = ["agent", "x", "subagent", "1"] := by decide
example : jsTake 8 "abcdefghij" = "abcdefgh" := by decide
example : ((jsSplit ':' "agent:x:subagent:1").getD 0 "") ++ ":" ++
    ((jsSplit ':' "agent:x:subagent:1").getD 1 "") ++ ":main" = "agent:x:main" := by decide

/-- Embedded JSON values, used for the payload-shaped fields the
collector stores opaquely (health, usage, host metrics, ...). -/
inductive JVal where
  | null
  | bool (b : Bool)
  | num (q : ℚ)
  | str (s : String)
  | arr (elems : List JVal)
  | obj (fields : List (String × JVal))

/-- One configured logical agent, as read from `agents.json`
(`{id, gatewayAgentId, name, emoji, machine, host, port, token, workspace}`).
Optional fields model properties that may be absent from the JSON. -/
structure AgentCfg where
  id : String
  gatewayAgentId : Option String
  name : Option String
  emoji : Option String
  machine : Option String
  host : String
  port : Nat
  token : String
deriving DecidableEq, Repr

/-- The per-agent display state record kept in `this.state`
(`AgentStateRecord` of the spec).  `none` models a JS `null`/`undefined`
field; `id` is optional because `_updateState` can create a record from
`{}` for an id with no prior entry. -/
structure AgentView where
  id : Option String
  gatewayAgentId : Option String
  name : Option String
  emoji : Option String
  machine : Option String
  online : Bool
  lastSeen : Option Int
  health : Option JVal
  sessions : Option JVal
  usage : Option JVal
  heartbeat : Option JVal
  presence : Option JVal
  channels : Option JVal
  cron : Option JVal
  error : Option String

/-- A partial state update, as passed to `_updateState`: for each field
that a call site may supply, `none` means the field is absent from the
partial object and `some v` means the spread sets it to `v`. -/
structure StatePatch where
  online : Option Bool
  lastSeen : Option (Option Int)
  health : Option (Option JVal)
  sessions : Option (Option JVal)
  usage : Option (Option JVal)
  heartbeat : Option (Option JVal)
  presence : Option (Option JVal)
  channels : Option (Option JVal)
  cron : Option (Option JVal)
  error : Option (Option String)

/-- The empty partial update `{}`. -/
def emptyPatch : StatePatch :=
  { online := none, lastSeen := none, health := none, sessions := none,
    usage := none, heartbeat := none, presence := none, channels := none,
    cron := none, error := none }

/-- The record produced by spreading an empty object, all fields absent
(model of `this.state.get(id) || {}` when the id has no entry). -/
def emptyView : AgentView :=
  { id := none, gatewayAgentId := none, name := none, emoji := none,
    machine := none, online := false, lastSeen := none, health := none,
    sessions := none, usage := none, heartbeat := none, presence := none,
    channels := none, cron := none, error := none }

/-- Shallow merge `{...current, ...partial}`. -/
def applyPatch (v : AgentView) (p : StatePatch) : AgentView :=
  { v with
    online := p.online.getD v.online,
    lastSeen := p.lastSeen.getD v.lastSeen,
    health := p.health.getD v.health,
    sessions := p.sessions.getD v.sessions,
    usage := p.usage.getD v.usage,
    heartbeat := p.heartbeat.getD v.heartbeat,
    presence := p.presence.getD v.presence,
    channels := p.channels.getD v.channels,
    cron := p.cron.getD v.cron,
    error := p.error.getD v.error }

/-- Connection state of a gateway link (`gw.state`). -/
inductive LinkState where
  | disconnected
  | connecting
  | waitingChallenge
  | connected
  | error
deriving DecidableEq, Repr

/-- One physical gateway connection record (`this.gateways` values):
`{key, host, port, token, ws, state, reconnectTimer, agents, rawData}`.
`ws` is `none` when no socket object exists, `some r` for a socket whose
readiness `r` says whether `readyState === OPEN`; `reconnectTimer` holds
the absolute time at which a scheduled reconnect fires. -/
structure GwRec where
  key : String
  host : String
  port : Nat
  token : String
  ws : Option Bool
  state : LinkState
  reconnectTimer : Option Int
  agents : List AgentCfg
  rawData : JVal

/-- The collector's mutable aggregate: the maps `agents`, `gateways`,
`agentGateway`, `state`, the host metrics object, the pending-request id
set and the request counter.  (Pending entries carry a resolver and a
timer in the source; the embedding tracks the set of outstanding ids,
which is what response matching consults.) -/
structure Collector where
  agents : List (String × AgentCfg)
  gateways : List (String × GwRec)
  agentGateway : List (String × String)
  state : List (String × AgentView)
  hostMetrics : JVal
  pending : List String
  reqCounter : Nat

/-- Model of `_updateState(id, partial)`: shallow-merge the partial into the
current record (or into `{}` when none exists) and store it back. -/
def updateState (st : List (String × AgentView)) (id : String)
    (p : StatePatch) : List (String × AgentView) :=
  setK st id (applyPatch ((lookupK st id).getD emptyView) p)

/-- The gateway key `` `${agent.host}:${agent.port}:${agent.token.slice(0, 8)}` ``. -/
def gwKeyOf (a : AgentCfg) : String :=
  a.host ++ ":" ++ toString a.port ++ ":" ++ jsTake 8 a.token

/-- The freshly created gateway record for a key, built from the first
agent configured with that key. -/
def freshGw (key : String) (a : AgentCfg) : GwRec :=
  { key := key, host := a.host, port := a.port, token := a.token,
    ws := none, state := .disconnected, reconnectTimer := none,
    agents := [], rawData := .obj [] }

/-- One `loadConfig` loop step on the gateway map: create the agent's
gateway record if its key is missing, then push the agent onto that
record's `agents` list. -/
def addAgentGw : List (String × GwRec) → AgentCfg → List (String × GwRec)
  | [], a => [(gwKeyOf a, { freshGw (gwKeyOf a) a with agents := [a] })]
  | (k, g) :: t, a =>
    if k = gwKeyOf a then (k, { g with agents := g.agents ++ [a] }) :: t
    else (k, g) :: addAgentGw t a

/-- The all-null initial `AgentStateRecord` created by `loadConfig` for a
newly configured agent. -/
def initView (a : AgentCfg) : AgentView :=
  { id := some a.id, gatewayAgentId := some (a.gatewayAgentId.getD a.id),
    name := a.name, emoji := a.emoji, machine := a.machine,
    online := false, lastSeen := none, health := none, sessions := none,
    usage := none, heartbeat := none, presence := none, channels := none,
    cron := none, error := none }

/-- One `loadConfig` loop step for a configured agent: register it in
`agents` and `agentGateway`, add it to its gateway record, and create its
state record only when the id has none yet. -/
def loadStep (c : Collector) (a : AgentCfg) : Collector :=
  { c with
    agents := setK c.agents a.id a,
    agentGateway := setK c.agentGateway a.id (gwKeyOf a),
    gateways := addAgentGw c.gateways a,
    state :=
      if (lookupK c.state a.id).isSome then c.state
      else c.state ++ [(a.id, initView a)] }

/-- Reset a gateway record's agent list (the `gw.agents = []` step of
the reload loop). -/
def clearAgents (g : GwRec) : GwRec := { g with agents := [] }

/-- Model of `loadConfig`: prune agents that left the config (removing their
`agents`, `state` and `agentGateway` entries), clear every gateway's
agent list, re-register every configured agent, and finally drop
gateways left with no agents. -/
def loadConfig (c : Collector) (cfg : List AgentCfg) : Collector :=
  let currentIds := cfg.map AgentCfg.id
  let staleIds := (keysOf c.agents).filter (fun i => ¬ i ∈ currentIds)
  let c1 : Collector :=
    { c with
      agents := c.agents.filter (fun p => ¬ p.1 ∈ staleIds),
      state := c.state.filter (fun p => ¬ p.1 ∈ staleIds),
      agentGateway := c.agentGateway.filter (fun p => ¬ p.1 ∈ staleIds) }
  let c2 : Collector :=
    { c1 with gateways := c1.gateways.map (fun p => (p.1, clearAgents p.2)) }
  let c3 := cfg.foldl loadStep c2
  { c3 with gateways := c3.gateways.filter (fun p => !p.2.agents.isEmpty) }

/-- The result shape of `getSnapshot()`: `{ts: Date.now(), agents, host}`. -/
structure Snapshot where
  ts : Int
  agents : List (String × AgentView)
  host : JVal

/-- Model of `getSnapshot`, with the call's `Date.now()` passed explicitly. -/
def getSnapshot (c : Collector) (now : Int) : Snapshot :=
  { ts := now, agents := c.state, host := c.hostMetrics }

/-- An inbound `{type:'res', ...}` frame: `id` and `error` may be absent;
`payloadType` is `msg.payload?.type`; `snapshot` is
`msg.payload.snapshot` for handshake replies; `errorMsg` is
`msg.error.message` when an error object is present. -/
structure ResMsg where
  id : Option String
  ok : Bool
  payloadType : Option String
  snapshot : Option JVal
  errorMsg : Option String

/-- The partial update `{online: true, error: null, lastSeen: Date.now(),
health: snap}` applied on a `hello-ok` handshake reply. -/
def helloOkPatch (now : Int) (snap : JVal) : StatePatch :=
  { emptyPatch with
    online := some true,
    error := some none,
    lastSeen := some (some now),
    health := some (some snap) }

/-- The partial update `{online: false, error: msg}` applied when a
gateway rejects or drops the connection. -/
def offlinePatch (msg : String) : StatePatch :=
  { emptyPatch with online := some false, error := some (some msg) }

/-- Apply one partial update to every logical agent sharing a link
(the `for (const agent of gw.agents) this._updateState(...)` loops). -/
def updateAll (st : List (String × AgentView)) (agents : List AgentCfg)
    (p : StatePatch) : List (String × AgentView) :=
  agents.foldl (fun s a => updateState s a.id p) st

/-- The `msg.type === 'res'` arm of `_handleMessage`: a `hello-ok` reply
marks the link connected and every sharing agent online; a failed reply
carrying an error marks every sharing agent offline; otherwise a frame
whose id matches a pending request resolves and removes that entry, and
any other frame falls through with no effect.  The function is total,
which models that this arm raises no exception; the 500 ms settle-poll
scheduled by the `hello-ok` branch is outside the mutated state and is
not tracked. -/
def handleRes (c : Collector) (gwKey : String) (m : ResMsg) (now : Int) :
    Collector :=
  match lookupK c.gateways gwKey with
  | none => c
  | some gw =>
    if m.ok ∧ m.payloadType = some "hello-ok" then
      { c with
        gateways := setK c.gateways gwKey { gw with state := .connected },
        state := updateAll c.state gw.agents
          (helloOkPatch now (m.snapshot.getD (.obj []))) }
    else if ¬ m.ok ∧ m.errorMsg.isSome then
      { c with
        state := updateAll c.state gw.agents
          (offlinePatch (m.errorMsg.getD "")) }
    else
      match m.id with
      | some i =>
        if i ∈ c.pending then
          { c with pending := c.pending.filter (fun x => ¬ x = i) }
        else c
      | none => c

/-- Outcome of `_call`: either the promise resolved to `null` in the
same turn, or a request frame was issued and the promise is pending
under the given id. -/
inductive CallOutcome where
  | immediateNull
  | issued (reqId : String)
deriving DecidableEq, Repr

/-- Everything `_call` does: the collector afterwards, the outcome, and
whether a frame was written to the socket / a timeout timer armed. -/
structure CallEffect where
  after : Collector
  outcome : CallOutcome
  frameSent : Bool
  timerArmed : Bool

/-- Model of `_call(gwKey, method, params)`: resolve `null` immediately unless the
gateway exists, has an open socket and is in state `connected`;
otherwise increment the request counter, send the `req` frame, arm the
10 s timeout and record the pending entry. -/
def callRpc (c : Collector) (gwKey : String) : CallEffect :=
  match lookupK c.gateways gwKey with
  | none => ⟨c, .immediateNull, false, false⟩
  | some gw =>
    match gw.ws with
    | none => ⟨c, .immediateNull, false, false⟩
    | some ready =>
      if ready = false ∨ gw.state ≠ .connected then
        ⟨c, .immediateNull, false, false⟩
      else
        let reqId := toString (c.reqCounter + 1)
        ⟨{ c with reqCounter := c.reqCounter + 1,
                  pending := c.pending ++ [reqId] },
         .issued reqId, true, true⟩

/-- The reason string `` `disconnected (code ${code})` `` stored on a
socket close. -/
def closeReason (code : Nat) : String :=
  "disconnected (code " ++ toString code ++ ")"

/-- Model of `_scheduleReconnect(gwKey)`: clear any previously armed reconnect
timer for the link and arm a fresh one firing 10 000 ms from now. -/
def scheduleReconnect (c : Collector) (gwKey : String) (now : Int) :
    Collector :=
  match lookupK c.gateways gwKey with
  | none => c
  | some gw =>
    { c with
      gateways :=
        setK c.gateways gwKey { gw with reconnectTimer := some (now + 10000) } }

/-- The `ws.on('close', ...)` handler: set the link state to
`disconnected`, mark every sharing agent offline with the close-code
reason, then schedule the reconnect. -/
def handleClose (c : Collector) (gwKey : String) (code : Nat) (now : Int) :
    Collector :=
  match lookupK c.gateways gwKey with
  | none => c
  | some gw =>
    let c1 : Collector :=
      { c with
        gateways := setK c.gateways gwKey { gw with state := .disconnected },
        state := updateAll c.state gw.agents (offlinePatch (closeReason code)) }
    scheduleReconnect c1 gwKey now

/-- The `ws.on('error', ...)` handler: set the link state to `error` and
mark every sharing agent offline with the error message.  It schedules
no reconnect. -/
def handleError (c : Collector) (gwKey : String) (msg : String) :
    Collector :=
  match lookupK c.gateways gwKey with
  | none => c
  | some gw =>
    { c with
      gateways := setK c.gateways gwKey { gw with state := .error },
      state := updateAll c.state gw.agents (offlinePatch msg) }

/-- One element of a `sessions.list` payload's `sessions` array: the
`key` property may be absent; the remaining properties travel opaquely. -/
structure WireSession where
  key : Option String
  payload : JVal

/-- The per-agent split of a poll round's session list in `_pollGateway`:
`allSessions.filter(s => (s.key || '').startsWith(`agent:${agentKey}:`))`. -/
def sessionsForAgent (agentKey : String) (allSessions : List WireSession) :
    List WireSession :=
  allSessions.filter
    (fun s => jsStartsWith (s.key.getD "") ("agent:" ++ agentKey ++ ":"))

/-- One `message` transcript record's relevant data: the resolved
timestamp `data.timestamp || msg.timestamp` (`none` when falsy), the
usage numbers with absent fields already defaulted to `0` as the source
does with `|| 0`, and the author role. -/
structure MsgLine where
  ts : Option Int
  costTotal : ℚ
  input : ℚ
  output : ℚ
  cacheRead : ℚ
  cacheWrite : ℚ
  role : String
deriving DecidableEq, Repr

/-- One parsed line of a transcript file: a `model_change` record, a
`message` record, or a line that fails to parse (or parses to a record
of another kind) and is skipped. -/
inductive TLine where
  | modelChange (modelId : Option String)
  | message (m : MsgLine)
  | skipped
deriving DecidableEq, Repr

/-- The running aggregate accumulated over transcript records:
cost, combined tokens (input + output + cacheRead), the individual
token counters and the count of user-authored messages. -/
structure Agg where
  cost : ℚ
  tokens : ℚ
  input : ℚ
  output : ℚ
  cacheRead : ℚ
  calls : Nat
deriving DecidableEq, Repr

/-- The zero aggregate. -/
def zeroAgg : Agg :=
  { cost := 0, tokens := 0, input := 0, output := 0, cacheRead := 0, calls := 0 }

/-- Whether a message record is dropped by the cutoff test
`if (ts && new Date(ts).getTime() < cutoffDate) continue;`: only a
present (truthy) timestamp older than the cutoff excludes the record. -/
def msgExcluded (cutoff : Int) (m : MsgLine) : Bool :=
  match m.ts with
  | some t => decide (t < cutoff)
  | none => false

/-- One step of the per-transcript scan in `getAnalytics`: model changes
and unparsable lines leave the totals alone; an in-window message adds
its cost and token counts and bumps the call count when its role is
`user`; an excluded message is skipped without stopping the scan. -/
def sessionAggStep (cutoff : Int) (acc : Agg) (l : TLine) : Agg :=
  match l with
  | .message m =>
    if msgExcluded cutoff m then acc
    else
      { cost := acc.cost + m.costTotal,
        tokens := acc.tokens + (m.input + m.output + m.cacheRead),
        input := acc.input + m.input,
        output := acc.output + m.output,
        cacheRead := acc.cacheRead + m.cacheRead,
        calls := acc.calls + (if m.role = "user" then 1 else 0) }
  | _ => acc

/-- The whole per-transcript scan: fold the step over the file's parsed
lines starting from zero. -/
def sessionAgg (cutoff : Int) (lines : List TLine) : Agg :=
  lines.foldl (sessionAggStep cutoff) zeroAgg

/-- One transcript file as `getAnalytics` sees it after the directory
listing filter: its filesystem modification time and its parsed lines. -/
structure TFile where
  mtimeMs : Int
  lines : List TLine
deriving DecidableEq, Repr

/-- Fieldwise accumulation of one session's totals into the running
grand totals (`totalCost += sessionCost; ...`). -/
def addAgg (a b : Agg) : Agg :=
  { cost := a.cost + b.cost, tokens := a.tokens + b.tokens,
    input := a.input + b.input, output := a.output + b.output,
    cacheRead := a.cacheRead + b.cacheRead, calls := a.calls + b.calls }

/-- The file loop of `getAnalytics` (the same modification-time guard
also opens the file loop of `getTokenAnalytics`): a file whose `mtimeMs`
is older than the cutoff is skipped with `continue` before any of its
lines are read; otherwise its per-session aggregate is folded into the
grand totals. -/
def analyticsAgg (cutoff : Int) (files : List TFile) : Agg :=
  files.foldl
    (fun acc f =>
      if f.mtimeMs < cutoff then acc
      else addAgg acc (sessionAgg cutoff f.lines))
    zeroAgg

/-- The final rounding `Math.round(totalCost * 10000) / 10000` applied
to the grand total cost before it is returned. -/
def roundTo4 (q : ℚ) : ℚ := (round (q * 10000) : ℤ) / 10000

/-- The total cost reported by `getAnalytics` over a list of files. -/
def analyticsTotalCost (cutoff : Int) (files : List TFile) : ℚ :=
  roundTo4 (analyticsAgg cutoff files).cost

/-- Session classification in `getTraces`:
`key.endsWith(':main') || !key.includes(':subagent:')`. -/
def isMainKey (k : String) : Bool :=
  jsEndsWith k ":main" || !jsIncludes k ":subagent:"

/-- Parent-key derivation in `getTraces`: only keys containing
`:subagent:` get a parent, and only when they have at least four
colon-separated segments; the parent is
`` `${parts[0]}:${parts[1]}:main` ``. -/
def parentKeyOf (k : String) : Option String :=
  if jsIncludes k ":subagent:" then
    let parts := jsSplit ':' k
    if 4 ≤ parts.length then
      some (parts.getD 0 "" ++ ":" ++ parts.getD 1 "" ++ ":main")
    else none
  else none

/-- Decidable membership of a key in the session map, as a Bool
(model of `sessionMap.get(key)` succeeding). -/
def memB (m : List String) (k : String) : Bool := m.any (fun x => x = k)

/-- The root sessions of the delegation forest built by `getTraces` over
the session map with the given keys: main sessions, plus non-main
sessions that have a parent key with no matching record (orphans).
A non-main session whose parent key derivation produced `null` is
pushed nowhere. -/
def rootsOf (m : List String) : List String :=
  m.filter
    (fun k =>
      isMainKey k ||
        match parentKeyOf k with
        | some p => !memB m p
        | none => false)

/-- The children attached to the session `p` of the map: the non-main
sessions whose derived parent key is `p`, provided that parent record
exists. -/
def childrenOf (m : List String) (p : String) : List String :=
  m.filter
    (fun k =>
      !isMainKey k &&
        match parentKeyOf k with
        | some q => decide (q = p) && memB m q
        | none => false)

/-- A collector that has loaded nothing yet (constructor state). -/
def emptyCollector : Collector :=
  { agents := [], gateways := [], agentGateway := [], state := [],
    hostMetrics := .obj [], pending := [], reqCounter := 0 }

/-- A minimal configured agent used by concrete instances. -/
def agentA : AgentCfg :=
  { id := "a", gatewayAgentId := none, name := none, emoji := none,
    machine := none, host := "h", port := 1, token := "tokenAAAA" }

/-- A second configured agent with the same gateway credentials. -/
def agentB : AgentCfg :=
  { id := "b", gatewayAgentId := none, name := none, emoji := none,
    machine := none, host := "h", port := 1, token := "tokenAAAA" }

/-- Two agents whose full tokens differ only after the eighth character,
so their (host, port, token) triples are distinct yet their gateway keys
coincide. -/
def agentT1 : AgentCfg :=
  { id := "t1", gatewayAgentId := none, name := none, emoji := none,
    machine := none, host := "h", port := 1, token := "aaaaaaaaX" }

def agentT2 : AgentCfg :=
  { id := "t2", gatewayAgentId := none, name := none, emoji := none,
    machine := none, host := "h", port := 1, token := "aaaaaaaaY" }

/-- A collector holding one gateway `"g"` in `connecting` state that
carries `agentA`, with `agentA`'s freshly created state record. -/
def collectorConnecting : Collector :=
  { agents := [("a", agentA)],
    gateways := [("g",
      { key := "g", host := "h", port := 1, token := "tokenAAAA",
        ws := some true, state := .connecting, reconnectTimer := none,
        agents := [agentA], rawData := .obj [] })],
    agentGateway := [("a", "g")],
    state := [("a", initView agentA)],
    hostMetrics := .obj [],
    pending := [],
    reqCounter := 0 }

/-- Like `collectorConnecting` but with the link `connected` and its
socket open, so that handlers that require a live link apply. -/
def collectorConnected : Collector :=
  { agents := [("a", agentA)],
    gateways := [("g",
      { key := "g", host := "h", port := 1, token := "tokenAAAA",
        ws := some true, state := .connected, reconnectTimer := none,
        agents := [agentA], rawData := .obj [] })],
    agentGateway := [("a", "g")],
    state := [("a", initView agentA)],
    hostMetrics := .obj [],
    pending := [],
    reqCounter := 0 }

/-- A late failed response: its id `"999"` has no pending entry, yet it
is not ok and carries an error object. -/
def lateErrorRes : ResMsg :=
  { id := some "999", ok := false, payloadType := none, snapshot := none,
    errorMsg := some "boom" }

/-- A benign unmatched response: ok, not a handshake reply, id unknown. -/
def strayOkRes : ResMsg :=
  { id := some "42", ok := true, payloadType := some "pong",
    snapshot := none, errorMsg := none }

/-- The spec's example transcript: one message before the cutoff window
costing 100, then three in-window messages costing 0.01, 0.02, 0.03
(window cutoff 1000). -/
def exampleTranscript : List TLine :=
  [ .message { ts := some 500, costTotal := 100, input := 0, output := 0,
               cacheRead := 0, cacheWrite := 0, role := "assistant" },
    .message { ts := some 1500, costTotal := 1/100, input := 0, output := 0,
               cacheRead := 0, cacheWrite := 0, role := "assistant" },
    .message { ts := some 1600, costTotal := 2/100, input := 0, output := 0,
               cacheRead := 0, cacheWrite := 0, role := "assistant" },
    .message { ts := some 1700, costTotal := 3/100, input := 0, output := 0,
               cacheRead := 0, cacheWrite := 0, role := "assistant" } ]

/-- A transcript file whose modification time (500) predates the cutoff
1000 although its single message's own timestamp (1500) is in-window. -/
def staleFile : TFile :=
  { mtimeMs := 500,
    lines := [ .message { ts := some 1500, costTotal := 5, input := 1,
                          output := 1, cacheRead := 1, cacheWrite := 0,
                          role := "user" } ] }

/-- Session-list entries for the spec's shared-link example. -/
def wireA : WireSession := { key := some "agent:a:main", payload := .null }

def wireB : WireSession := { key := some "agent:b:main", payload := .null }

/-- A session whose key matches both the prefix of agent `x` and that of
agent `x:y`. -/
def wireXY : WireSession := { key := some "agent:x:y:main", payload := .null }

/-- The cost contribution a transcript line makes to the per-session
total: only `message` records that the cutoff test keeps contribute
their `usage.cost?.total || 0`. -/
def keptCost (cutoff : Int) : TLine → Option ℚ
  | .message m => if msgExcluded cutoff m then none else some m.costTotal
  | _ => none

theorem lookupK_setK_self {β : Type} (l : List (String × β)) (k : String)
    (v : β) : lookupK (setK l k v) k = some v := by
  induction l with
  | nil => simp [setK, lookupK]
  | cons p t ih =>
    obtain ⟨k₀, v₀⟩ := p
    by_cases h : k₀ = k
    · simp [setK, h, lookupK]
    · simp [setK, h, lookupK, ih]

theorem lookupK_setK_ne {β : Type} (l : List (String × β)) (k k' : String)
    (v : β) (h : k' ≠ k) : lookupK (setK l k v) k' = lookupK l k' := by
  induction l with
  | nil => simp [setK, lookupK, if_neg (Ne.symm h)]
  | cons p t ih =>
    obtain ⟨k₀, v₀⟩ := p
    by_cases h₀ : k₀ = k
    · subst h₀
      simp [setK, lookupK, if_neg (Ne.symm h)]
    · simp [setK, h₀, lookupK, ih]

theorem keysOf_cons {β : Type} (p : String × β) (t : List (String × β)) :
    keysOf (p :: t) = p.1 :: keysOf t := rfl

theorem mem_keysOf_iff {β : Type} (l : List (String × β)) (k : String) :
    k ∈ keysOf l ↔ ∃ v, lookupK l k = some v := by
  induction l with
  | nil => simp [keysOf, lookupK]
  | cons p t ih =>
    obtain ⟨k₀, v₀⟩ := p
    by_cases h : k₀ = k
    · subst h
      simp [keysOf_cons, lookupK]
    · rw [keysOf_cons]
      simp only [List.mem_cons, lookupK, if_neg h, ih]
      constructor
      · rintro (h1 | h2)
        · exact absurd h1.symm h
        · exact h2
      · exact fun h2 => Or.inr h2

theorem lookupK_append_some {β : Type} {l l' : List (String × β)}
    {k : String} {v : β} (h : lookupK l k = some v) :
    lookupK (l ++ l') k = some v := by
  induction l with
  | nil => simp [lookupK] at h
  | cons p t ih =>
    obtain ⟨k₀, v₀⟩ := p
    by_cases h₀ : k₀ = k
    · simp [lookupK, h₀] at h ⊢
      exact h
    · simp [lookupK, h₀] at h ⊢
      exact ih h

theorem lookupK_append_none {β : Type} {l : List (String × β)}
    (l' : List (String × β)) {k : String} (h : lookupK l k = none) :
    lookupK (l ++ l') k = lookupK l' k := by
  induction l with
  | nil => simp
  | cons p t ih =>
    obtain ⟨k₀, v₀⟩ := p
    by_cases h₀ : k₀ = k
    · simp [lookupK, h₀] at h
    · simp [lookupK, h₀] at h ⊢
      exact ih h

theorem lookupK_filter_key {β : Type} (l : List (String × β))
    (q : String → Bool) (k : String) :
    lookupK (l.filter (fun p => q p.1)) k =
      if q k then lookupK l k else none := by
  induction l with
  | nil => simp [lookupK]
  | cons p t ih =>
    obtain ⟨k₀, v₀⟩ := p
    by_cases h₀ : k₀ = k
    · subst h₀
      by_cases hq : q k₀
      · simp [List.filter, hq, lookupK]
      · simp [List.filter, hq, lookupK, ih]
    · by_cases hq : q k₀
      · simp [List.filter, hq, lookupK, h₀, ih]
      · simp [List.filter, hq, lookupK, h₀, ih]

theorem lookupK_mapVal {β γ : Type} (l : List (String × β)) (f : β → γ)
    (k : String) :
    lookupK (l.map (fun p => (p.1, f p.2))) k = (lookupK l k).map f := by
  induction l with
  | nil => simp [lookupK]
  | cons p t ih =>
    obtain ⟨k₀, v₀⟩ := p
    by_cases h₀ : k₀ = k
    · simp [lookupK, h₀]
    · simp [lookupK, h₀, ih]

theorem keysOf_mapVal {β γ : Type} (l : List (String × β)) (f : β → γ) :
    keysOf (l.map (fun p => (p.1, f p.2))) = keysOf l := by
  induction l with
  | nil => rfl
  | cons p t ih => simp [keysOf] at ih ⊢

theorem nodup_keysOf_filter {β : Type} (l : List (String × β))
    (P : String × β → Bool) (h : (keysOf l).Nodup) :
    (keysOf (l.filter P)).Nodup :=
  ((List.filter_sublist l).map Prod.fst).nodup h

theorem lookupK_none_of_not_mem {β : Type} {l : List (String × β)}
    {k : String} (h : ¬ k ∈ keysOf l) : lookupK l k = none := by
  cases hl : lookupK l k with
  | none => rfl
  | some v => exact absurd ((mem_keysOf_iff l k).mpr ⟨v, hl⟩) h

theorem lookupK_filter_val {β : Type} (l : List (String × β))
    (Q : β → Bool) (k : String) (hnd : (keysOf l).Nodup) :
    lookupK (l.filter (fun p => Q p.2)) k =
      (lookupK l k).bind (fun v => if Q v then some v else none) := by
  induction l with
  | nil => simp [lookupK]
  | cons p t ih =>
    obtain ⟨k₀, v₀⟩ := p
    rw [keysOf_cons] at hnd
    simp only [List.nodup_cons] at hnd
    by_cases h₀ : k₀ = k
    · subst h₀
      by_cases hq : Q v₀
      · simp [List.filter, hq, lookupK]
      · have hnone : lookupK (t.filter (fun p => Q p.2)) k₀ = none := by
          refine lookupK_none_of_not_mem ?_
          intro hmem
          exact hnd.1 (((List.filter_sublist t).map Prod.fst).subset hmem)
        simp [List.filter, hq, lookupK, hnone]
    · by_cases hq : Q v₀
      · simp [List.filter, hq, lookupK, h₀, ih hnd.2]
      · simp [List.filter, hq, lookupK, h₀, ih hnd.2]

theorem chPre_iff (l₁ l₂ : List Char) : chPre l₁ l₂ = true ↔ l₁ <+: l₂ := by
  induction l₁ generalizing l₂ with
  | nil => simp [chPre]
  | cons a as ih =>
    cases l₂ with
    | nil => simp [chPre]
    | cons b bs => simp [chPre, List.cons_prefix_cons, ih]

theorem applyPatch_offline (v : AgentView) (msg : String) :
    (applyPatch v (offlinePatch msg)).online = false ∧
      (applyPatch v (offlinePatch msg)).error = some msg := by
  simp [applyPatch, offlinePatch, emptyPatch]

theorem lookupK_updateState_self (st : List (String × AgentView))
    (id : String) (p : StatePatch) :
    lookupK (updateState st id p) id =
      some (applyPatch ((lookupK st id).getD emptyView) p) :=
  lookupK_setK_self st id _

theorem lookupK_updateState_ne (st : List (String × AgentView))
    (id id' : String) (p : StatePatch) (h : id' ≠ id) :
    lookupK (updateState st id p) id' = lookupK st id' :=
  lookupK_setK_ne st id id' _ h

theorem updateAll_offline_preserve (agents : List AgentCfg)
    (st : List (String × AgentView)) (msg : String) (x : String)
    (hx : ∃ v, lookupK st x = some v ∧ v.online = false ∧ v.error = some msg) :
    ∃ v, lookupK (updateAll st agents (offlinePatch msg)) x = some v ∧
      v.online = false ∧ v.error = some msg := by
  induction agents generalizing st with
  | nil => exact hx
  | cons a t ih =>
    refine ih (updateState st a.id (offlinePatch msg)) ?_
    by_cases hid : x = a.id
    · subst hid
      exact ⟨_, lookupK_updateState_self st a.id (offlinePatch msg),
        applyPatch_offline _ msg⟩
    · obtain ⟨v, hv, hvp⟩ := hx
      exact ⟨v, by rw [lookupK_updateState_ne st a.id x _ hid]; exact hv, hvp⟩

theorem updateAll_offline (agents : List AgentCfg)
    (st : List (String × AgentView)) (msg : String) (a : AgentCfg)
    (ha : a ∈ agents) :
    ∃ v, lookupK (updateAll st agents (offlinePatch msg)) a.id = some v ∧
      v.online = false ∧ v.error = some msg := by
  induction agents generalizing st with
  | nil => cases ha
  | cons b t ih =>
    rcases List.mem_cons.mp ha with hb | ht
    · subst hb
      exact updateAll_offline_preserve t _ msg a.id
        ⟨_, lookupK_updateState_self st a.id (offlinePatch msg),
          applyPatch_offline _ msg⟩
    · exact ih (updateState st b.id (offlinePatch msg)) ht

theorem foldl_loadStep_gateways (cfg : List AgentCfg) (c : Collector) :
    (cfg.foldl loadStep c).gateways = cfg.foldl addAgentGw c.gateways := by
  induction cfg generalizing c with
  | nil => rfl
  | cons a t ih => exact ih (loadStep c a)

theorem foldl_loadStep_state (cfg : List AgentCfg) (c : Collector) :
    (cfg.foldl loadStep c).state =
      cfg.foldl
        (fun st a =>
          if (lookupK st a.id).isSome then st else st ++ [(a.id, initView a)])
        c.state := by
  induction cfg generalizing c with
  | nil => rfl
  | cons a t ih => exact ih (loadStep c a)

theorem lookupK_addAgentGw_some {l : List (String × GwRec)} {a : AgentCfg}
    {g₀ : GwRec} (h : lookupK l (gwKeyOf a) = some g₀) (k : String) :
    lookupK (addAgentGw l a) k =
      if gwKeyOf a = k then some { g₀ with agents := g₀.agents ++ [a] }
      else lookupK l k := by
  induction l with
  | nil => simp [lookupK] at h
  | cons p t ih =>
    obtain ⟨k₀, g⟩ := p
    rw [addAgentGw]
    by_cases h₀ : k₀ = gwKeyOf a
    · rw [if_pos h₀]
      rw [lookupK, if_pos h₀] at h
      injection h with hg
      subst hg
      by_cases hk : gwKeyOf a = k
      · rw [lookupK, if_pos (h₀.trans hk), if_pos hk]
      · have hk₀ : ¬ k₀ = k := fun hh => hk (h₀.symm.trans hh)
        rw [lookupK, if_neg hk₀, if_neg hk, lookupK, if_neg hk₀]
    · rw [if_neg h₀]
      rw [lookupK, if_neg h₀] at h
      by_cases hk : k₀ = k
      · have hak : ¬ gwKeyOf a = k := fun hh => h₀ (hk.trans hh.symm)
        rw [lookupK, if_pos hk, if_neg hak, lookupK, if_pos hk]
      · by_cases hak : gwKeyOf a = k
        · rw [lookupK, if_neg hk, ih h, if_pos hak, if_pos hak]
        · rw [lookupK, if_neg hk, ih h, if_neg hak, if_neg hak, lookupK,
            if_neg hk]

theorem lookupK_addAgentGw_none {l : List (String × GwRec)} {a : AgentCfg}
    (h : lookupK l (gwKeyOf a) = none) (k : String) :
    lookupK (addAgentGw l a) k =
      if gwKeyOf a = k then
        some { freshGw (gwKeyOf a) a with agents := [a] }
      else lookupK l k := by
  induction l with
  | nil =>
    by_cases hk : gwKeyOf a = k
    · subst hk
      simp [addAgentGw, lookupK]
    · simp [addAgentGw, lookupK, hk]
  | cons p t ih =>
    obtain ⟨k₀, g⟩ := p
    rw [addAgentGw]
    by_cases h₀ : k₀ = gwKeyOf a
    · rw [lookupK, if_pos h₀] at h
      cases h
    · rw [if_neg h₀]
      rw [lookupK, if_neg h₀] at h
      by_cases hk : k₀ = k
      · have hak : ¬ gwKeyOf a = k := fun hh => h₀ (hk.trans hh.symm)
        rw [lookupK, if_pos hk, if_neg hak, lookupK, if_pos hk]
      · by_cases hak : gwKeyOf a = k
        · rw [lookupK, if_neg hk, ih h, if_pos hak, if_pos hak]
        · rw [lookupK, if_neg hk, ih h, if_neg hak, if_neg hak, lookupK,
            if_neg hk]

theorem keysOf_addAgentGw (l : List (String × GwRec)) (a : AgentCfg) :
    keysOf (addAgentGw l a) =
      if gwKeyOf a ∈ keysOf l then keysOf l
      else keysOf l ++ [gwKeyOf a] := by
  induction l with
  | nil => simp [addAgentGw, keysOf]
  | cons p t ih =>
    obtain ⟨k₀, g⟩ := p
    by_cases h₀ : k₀ = gwKeyOf a
    · subst h₀
      simp [addAgentGw, keysOf_cons]
    · have hne : ¬ gwKeyOf a = k₀ := fun hh => h₀ hh.symm
      simp only [addAgentGw, if_neg h₀, keysOf_cons, ih]
      by_cases hmem : gwKeyOf a ∈ keysOf t
      · simp [hmem, hne]
      · simp [hmem, hne]

theorem gwFold_agents (cfg : List AgentCfg) (l : List (String × GwRec))
    (A : String → List AgentCfg)
    (h1 : ∀ k g, lookupK l k = some g → g.agents = A k)
    (h2 : ∀ k, lookupK l k = none → A k = []) :
    ∀ k g, lookupK (cfg.foldl addAgentGw l) k = some g →
      g.agents = A k ++ cfg.filter (fun x => gwKeyOf x = k) := by
  induction cfg generalizing l A with
  | nil =>
    intro k g hg
    simpa using h1 k g hg
  | cons a t ih =>
    intro k g hg
    have step :
        ∀ k' g', lookupK (addAgentGw l a) k' = some g' →
          g'.agents = A k' ++ if gwKeyOf a = k' then [a] else [] := by
      intro k' g' hg'
      cases hl : lookupK l (gwKeyOf a) with
      | some g₀ =>
        rw [lookupK_addAgentGw_some hl k'] at hg'
        by_cases hk : gwKeyOf a = k'
        · rw [if_pos hk] at hg'
          injection hg' with hg''
          subst hg''
          rw [if_pos hk]
          have hag := h1 _ _ hl
          rw [hk] at hag
          simp [hag]
        · rw [if_neg hk] at hg'
          rw [if_neg hk, List.append_nil]
          exact h1 _ _ hg'
      | none =>
        rw [lookupK_addAgentGw_none hl k'] at hg'
        by_cases hk : gwKeyOf a = k'
        · rw [if_pos hk] at hg'
          injection hg' with hg''
          subst hg''
          rw [if_pos hk]
          have hA := h2 _ hl
          rw [hk] at hA
          simp [hA, freshGw]
        · rw [if_neg hk] at hg'
          rw [if_neg hk, List.append_nil]
          exact h1 _ _ hg'
    have step2 :
        ∀ k', lookupK (addAgentGw l a) k' = none →
          (A k' ++ if gwKeyOf a = k' then [a] else []) = [] := by
      intro k' hg'
      cases hl : lookupK l (gwKeyOf a) with
      | some g₀ =>
        rw [lookupK_addAgentGw_some hl k'] at hg'
        by_cases hk : gwKeyOf a = k'
        · rw [if_pos hk] at hg'
          cases hg'
        · rw [if_neg hk] at hg'
          rw [if_neg hk, List.append_nil]
          exact h2 _ hg'
      | none =>
        rw [lookupK_addAgentGw_none hl k'] at hg'
        by_cases hk : gwKeyOf a = k'
        · rw [if_pos hk] at hg'
          cases hg'
        · rw [if_neg hk] at hg'
          rw [if_neg hk, List.append_nil]
          exact h2 _ hg'
    have hmain := ih (addAgentGw l a)
      (fun k' => A k' ++ if gwKeyOf a = k' then [a] else []) step step2 k g hg
    rw [hmain, List.filter_cons]
    by_cases hk : gwKeyOf a = k
    · simp [hk]
    · simp [hk]

theorem gwFold_keys_mem (cfg : List AgentCfg) (l : List (String × GwRec))
    (k : String) :
    k ∈ keysOf (cfg.foldl addAgentGw l) ↔
      k ∈ keysOf l ∨ k ∈ cfg.map gwKeyOf := by
  induction cfg generalizing l with
  | nil => simp
  | cons a t ih =>
    rw [List.foldl_cons, ih, keysOf_addAgentGw]
    by_cases hmem : gwKeyOf a ∈ keysOf l
    · rw [if_pos hmem]
      simp only [List.map_cons, List.mem_cons]
      constructor
      · tauto
      · rintro (h | h | h)
        · exact Or.inl h
        · subst h
          exact Or.inl hmem
        · exact Or.inr h
    · rw [if_neg hmem]
      simp only [List.mem_append, List.mem_singleton, List.map_cons,
        List.mem_cons]
      tauto

theorem gwFold_keys_nodup (cfg : List AgentCfg) (l : List (String × GwRec))
    (h : (keysOf l).Nodup) : (keysOf (cfg.foldl addAgentGw l)).Nodup := by
  induction cfg generalizing l with
  | nil => exact h
  | cons a t ih =>
    rw [List.foldl_cons]
    refine ih (addAgentGw l a) ?_
    rw [keysOf_addAgentGw]
    by_cases hmem : gwKeyOf a ∈ keysOf l
    · rw [if_pos hmem]
      exact h
    · rw [if_neg hmem]
      simp [List.nodup_append, h, hmem]

theorem stFold_lookup_some (cfg : List AgentCfg)
    (st : List (String × AgentView)) (k : String) (v : AgentView)
    (h : lookupK st k = some v) :
    lookupK
      (cfg.foldl
        (fun s a =>
          if (lookupK s a.id).isSome then s else s ++ [(a.id, initView a)])
        st) k = some v := by
  induction cfg generalizing st with
  | nil => exact h
  | cons a t ih =>
    rw [List.foldl_cons]
    by_cases ha : (lookupK st a.id).isSome
    · rw [if_pos ha]
      exact ih st h
    · rw [if_neg ha]
      exact ih _ (lookupK_append_some h)

theorem stFold_lookup_none (cfg : List AgentCfg)
    (st : List (String × AgentView)) (k : String)
    (h : lookupK st k = none) :
    lookupK
      (cfg.foldl
        (fun s a =>
          if (lookupK s a.id).isSome then s else s ++ [(a.id, initView a)])
        st) k = (cfg.find? (fun a => a.id = k)).map initView := by
  induction cfg generalizing st with
  | nil => exact h
  | cons a t ih =>
    rw [List.foldl_cons]
    by_cases hid : a.id = k
    · subst hid
      have ha : ¬ (lookupK st a.id).isSome := by
        rw [h]
        simp
      rw [if_neg ha]
      have : lookupK (st ++ [(a.id, initView a)]) a.id = some (initView a) := by
        rw [lookupK_append_none _ h, lookupK, if_pos rfl]
      rw [stFold_lookup_some t _ _ _ this, List.find?_cons_of_pos _ (by simp)]
      simp
    · have hfind :
          ((a :: t).find? (fun x => x.id = k)).map initView =
            (t.find? (fun x => x.id = k)).map initView := by
        rw [List.find?_cons_of_neg]
        simp [hid]
      rw [hfind]
      by_cases ha : (lookupK st a.id).isSome
      · rw [if_pos ha]
        exact ih st h
      · rw [if_neg ha]
        refine ih _ ?_
        rw [lookupK_append_none _ h, lookupK, if_neg hid]
        rfl

theorem stFold_nodup (cfg : List AgentCfg)
    (st : List (String × AgentView)) (h : (keysOf st).Nodup) :
    (keysOf
      (cfg.foldl
        (fun s a =>
          if (lookupK s a.id).isSome then s else s ++ [(a.id, initView a)])
        st)).Nodup := by
  induction cfg generalizing st with
  | nil => exact h
  | cons a t ih =>
    rw [List.foldl_cons]
    by_cases ha : (lookupK st a.id).isSome
    · rw [if_pos ha]
      exact ih st h
    · rw [if_neg ha]
      refine ih _ ?_
      have hnm : ¬ a.id ∈ keysOf st := by
        intro hmem
        obtain ⟨v, hv⟩ := (mem_keysOf_iff st a.id).mp hmem
        rw [hv] at ha
        exact ha rfl
      have : keysOf (st ++ [(a.id, initView a)]) = keysOf st ++ [a.id] := by
        simp [keysOf]
      rw [this]
      simp [List.nodup_append, h, hnm]

theorem find?_eq_of_nodup_ids (cfg : List AgentCfg) (a : AgentCfg)
    (hnd : (cfg.map AgentCfg.id).Nodup) (ha : a ∈ cfg) :
    cfg.find? (fun x => x.id = a.id) = some a := by
  induction cfg with
  | nil => cases ha
  | cons b t ih =>
    simp only [List.map_cons, List.nodup_cons] at hnd
    rcases List.mem_cons.mp ha with hb | ht
    · subst hb
      rw [List.find?_cons_of_pos]
      simp
    · have hne : ¬ b.id = a.id := by
        intro hh
        exact hnd.1 (hh ▸ List.mem_map_of_mem AgentCfg.id ht)
      rw [List.find?_cons_of_neg]
      · exact ih hnd.2 ht
      · simp [hne]

theorem memB_iff (m : List String) (p : String) : memB m p = true ↔ p ∈ m := by
  simp [memB]

theorem closeReason_ne_empty (code : Nat) : closeReason code ≠ "" := by
  intro h
  have hd := congrArg String.data h
  rw [closeReason, String.data_append, String.data_append] at hd
  rw [show ("disconnected (code ").data = 'd' :: ("isconnected (code ").data
    from rfl] at hd
  simp at hd

theorem sessionAgg_cost_foldl (cutoff : Int) (lines : List TLine) (acc : Agg) :
    (lines.foldl (sessionAggStep cutoff) acc).cost =
      acc.cost + (lines.filterMap (keptCost cutoff)).sum := by
  induction lines generalizing acc with
  | nil => simp
  | cons l t ih =>
    cases l with
    | modelChange mid =>
      simpa [sessionAggStep, keptCost, List.filterMap_cons] using ih acc
    | skipped =>
      simpa [sessionAggStep, keptCost, List.filterMap_cons] using ih acc
    | message msg =>
      by_cases hex : msgExcluded cutoff msg
      · simpa [sessionAggStep, hex, keptCost, List.filterMap_cons] using ih acc
      · rw [List.foldl_cons]
        have hstep :
            sessionAggStep cutoff acc (.message msg) =
              { cost := acc.cost + msg.costTotal,
                tokens := acc.tokens + (msg.input + msg.output + msg.cacheRead),
                input := acc.input + msg.input,
                output := acc.output + msg.output,
                cacheRead := acc.cacheRead + msg.cacheRead,
                calls := acc.calls + (if msg.role = "user" then 1 else 0) } := by
          simp [sessionAggStep, hex]
        rw [hstep, ih]
        simp [keptCost, hex, List.filterMap_cons, add_assoc]

theorem analyticsAgg_foldl_skip (cutoff : Int) (files : List TFile)
    (acc : Agg) :
    files.foldl
        (fun acc f =>
          if f.mtimeMs < cutoff then acc
          else addAgg acc (sessionAgg cutoff f.lines)) acc =
      (files.filter (fun f => ¬ f.mtimeMs < cutoff)).foldl
        (fun acc f =>
          if f.mtimeMs < cutoff then acc
          else addAgg acc (sessionAgg cutoff f.lines)) acc := by
  induction files generalizing acc with
  | nil => rfl
  | cons f t ih =>
    by_cases hm : f.mtimeMs < cutoff
    · simp only [List.foldl_cons, List.filter_cons, if_pos hm, hm,
        decide_eq_true_eq, not_true_eq_false, decide_False, if_false]
      exact ih acc
    · simp only [List.foldl_cons, List.filter_cons, if_neg hm, hm,
        decide_eq_true_eq, not_false_eq_true, decide_True, if_true]
      exact ih _

theorem loadConfig_gateways_eq (c : Collector) (cfg : List AgentCfg) :
    (loadConfig c cfg).gateways =
      (cfg.foldl addAgentGw
        (c.gateways.map (fun p => (p.1, clearAgents p.2)))).filter
        (fun p => !p.2.agents.isEmpty) := by
  simp only [loadConfig]
  rw [foldl_loadStep_gateways]

theorem loadConfig_state_eq (c : Collector) (cfg : List AgentCfg) :
    (loadConfig c cfg).state =
      cfg.foldl
        (fun st a =>
          if (lookupK st a.id).isSome then st else st ++ [(a.id, initView a)])
        (c.state.filter
          (fun p =>
            ¬ p.1 ∈ (keysOf c.agents).filter
              (fun i => ¬ i ∈ cfg.map AgentCfg.id))) := by
  simp only [loadConfig]
  rw [foldl_loadStep_state]

/-- C3: for every transcript, the per-session cost aggregation of
`getAnalytics` sums exactly the `message` records that the cutoff test
keeps (records carrying a timestamp older than the cutoff are excluded
without stopping the scan of the remaining lines), and on the spec's
example transcript — one out-of-window message costing 100 followed by
three in-window messages costing 0.01, 0.02, 0.03 — the session cost is
0.06, not 100.06. -/
theorem sessionAgg_cost_window :
    (∀ (cutoff : Int) (lines : List TLine),
      (sessionAgg cutoff lines).cost =
        (lines.filterMap (keptCost cutoff)).sum) ∧
    (sessionAgg 1000 exampleTranscript).cost = 6 / 100 := by
  constructor
  · intro cutoff lines
    rw [sessionAgg, sessionAgg_cost_foldl]
    simp [zeroAgg]
  · show (List.foldl (sessionAggStep 1000) zeroAgg exampleTranscript).cost
      = 6 / 100
    rw [exampleTranscript]
    simp only [List.foldl_cons, List.foldl_nil]
    norm_num [sessionAggStep, msgExcluded, zeroAgg]

/-- C4 (amended): in the delegation forest of `getTraces`, a session
whose key ends in `:main` or lacks a `:subagent:` segment is a root; a
non-main session whose key yields a parent key (it contains
`:subagent:` and has at least four colon-separated segments, the parent
being `<seg0>:<seg1>:main`) is attached as a child of that parent when
the parent record exists and becomes an orphan root otherwise.  (The
unamended claim fails for subagent keys with fewer than four segments,
which are dropped — see the counterexample.) -/
theorem tracesForest_classification (m : List String) (k : String)
    (hk : k ∈ m) :
    (isMainKey k = true → k ∈ rootsOf m) ∧
    (isMainKey k = false →
      ∀ p, parentKeyOf k = some p →
        (p ∈ m → k ∈ childrenOf m p) ∧ (¬ p ∈ m → k ∈ rootsOf m)) := by
  constructor
  · intro hmain
    refine List.mem_filter.mpr ⟨hk, ?_⟩
    simp [hmain]
  · intro hnm p hp
    constructor
    · intro hpm
      refine List.mem_filter.mpr ⟨hk, ?_⟩
      simp [hnm, hp, (memB_iff m p).mpr hpm]
    · intro hnp
      have hmb : memB m p = false := by
        rcases Bool.eq_false_or_eq_true (memB m p) with hb | hb
        · exact absurd ((memB_iff m p).mp hb) hnp
        · exact hb
      refine List.mem_filter.mpr ⟨hk, ?_⟩
      simp [hnm, hp, hmb]

/-- C4 counterexample: the session map containing only the key
`a:subagent:b` (a `:subagent:` key with fewer than four segments and no
parent record) produces an empty forest — the session is dropped, not
kept as an orphan root as the claim states. -/
theorem tracesForest_drop_counterexample :
    ¬ "a:subagent:b" ∈ rootsOf ["a:subagent:b"] ∧
      childrenOf ["a:subagent:b"] "a:subagent:b" = [] := by
  constructor
  · decide
  · decide

/-- C4 witness: on the spec's example map, `agent:x:subagent:1` is
attached as a child of `agent:x:main`, and `agent:x:main` is a root. -/
theorem tracesForest_classification_witness :
    "agent:x:subagent:1" ∈
        childrenOf ["agent:x:main", "agent:x:subagent:1"] "agent:x:main" ∧
      "agent:x:main" ∈ rootsOf ["agent:x:main", "agent:x:subagent:1"] :=
  ⟨((tracesForest_classification ["agent:x:main", "agent:x:subagent:1"]
        "agent:x:subagent:1" (by decide)).2 (by decide) "agent:x:main"
        (by decide)).1 (by decide),
    (tracesForest_classification ["agent:x:main", "agent:x:subagent:1"]
        "agent:x:main" (by decide)).1 (by decide)⟩

/-- C5 (amended): the per-agent split of a poll round's session list
keeps exactly the sessions whose key starts with
`agent:<gatewayAgentId>:`; the lists of two agents are disjoint whenever
neither agent's prefix string is itself a leading segment of the
other's — in particular for distinct colon-free ids.  (With
colon-containing ids one prefix can subsume the other and the lists can
overlap — see the counterexample.) -/
theorem sessionsForAgent_split (aKey bKey : String) (l : List WireSession) :
    (∀ s, s ∈ sessionsForAgent aKey l ↔
        s ∈ l ∧
          jsStartsWith (s.key.getD "") ("agent:" ++ aKey ++ ":") = true) ∧
    (jsStartsWith ("agent:" ++ bKey ++ ":") ("agent:" ++ aKey ++ ":") = false →
      jsStartsWith ("agent:" ++ aKey ++ ":") ("agent:" ++ bKey ++ ":") = false →
      ∀ s ∈ sessionsForAgent aKey l, ¬ s ∈ sessionsForAgent bKey l) := by
  constructor
  · intro s
    exact List.mem_filter
  · intro hab hba s hs hsb
    have h1 : jsStartsWith (s.key.getD "") ("agent:" ++ aKey ++ ":") = true :=
      (List.mem_filter.mp hs).2
    have h2 : jsStartsWith (s.key.getD "") ("agent:" ++ bKey ++ ":") = true :=
      (List.mem_filter.mp hsb).2
    rw [jsStartsWith] at h1 h2 hab hba
    have p1 := (chPre_iff _ _).mp h1
    have p2 := (chPre_iff _ _).mp h2
    rcases List.prefix_or_prefix_of_prefix p1 p2 with hp | hp
    · rw [(chPre_iff _ _).mpr hp] at hab
      exact absurd hab (by decide)
    · rw [(chPre_iff _ _).mpr hp] at hba
      exact absurd hba (by decide)

/-- C5 witness: for the shared-link example with sessions
`agent:a:main` and `agent:b:main`, the entry for agent `a` does not
appear in agent `b`'s filtered list. -/
theorem sessionsForAgent_split_witness :
    ¬ wireA ∈ sessionsForAgent "b" [wireA, wireB] :=
  (sessionsForAgent_split "a" "b" [wireA, wireB]).2 (by decide) (by decide)
    wireA (List.Mem.head _)

/-- C5 counterexample: with the colon-containing gatewayAgentIds `x` and
`x:y` (distinct), the session keyed `agent:x:y:main` lands in both
agents' filtered lists, so the lists are not disjoint as the claim
states. -/
theorem sessionsForAgent_overlap_counterexample :
    wireXY ∈ sessionsForAgent "x" [wireXY] ∧
      wireXY ∈ sessionsForAgent "x:y" [wireXY] ∧ "x" ≠ "x:y" :=
  ⟨List.Mem.head _, List.Mem.head _, by decide⟩

/-- C6: `_call` on a link whose state is not `connected` resolves to
`null` in the same turn: the collector is unchanged (no pending entry,
no counter bump), no frame is written and no timeout timer is armed. -/
theorem callRpc_not_connected (c : Collector) (gwKey : String)
    (h : ¬ (lookupK c.gateways gwKey).map GwRec.state =
        some LinkState.connected) :
    callRpc c gwKey =
      ⟨c, CallOutcome.immediateNull, false, false⟩ := by
  unfold callRpc
  cases hg : lookupK c.gateways gwKey with
  | none => rfl
  | some gw =>
    dsimp only
    cases hw : gw.ws with
    | none => rfl
    | some ready =>
      dsimp only
      have hne : gw.state ≠ LinkState.connected := by
        intro hc
        rw [hg] at h
        exact h (by simp [hc])
      rw [if_pos (Or.inr hne)]

/-- C6 witness: on a link in state `connecting`, the call resolves to
`null` with no side effects. -/
theorem callRpc_not_connected_witness :
    callRpc collectorConnecting "g" =
      ⟨collectorConnecting, CallOutcome.immediateNull, false, false⟩ :=
  callRpc_not_connected collectorConnecting "g" (by decide)

/-- C8 (amended): two `getSnapshot` calls over the same collector state
agree on the `agents` and `host` components; only the `ts` field, which
records each call's own `Date.now()`, differs between calls made at
different times. -/
theorem getSnapshot_stable (c : Collector) (t₁ t₂ : Int) :
    (getSnapshot c t₁).agents = (getSnapshot c t₂).agents ∧
      (getSnapshot c t₁).host = (getSnapshot c t₂).host ∧
      (getSnapshot c t₁).ts = t₁ :=
  ⟨rfl, rfl, rfl⟩

/-- C8 counterexample: two consecutive `getSnapshot` calls with no
intervening events but distinct clock readings are not structurally
identical — the `ts` field differs. -/
theorem getSnapshot_ts_counterexample :
    getSnapshot emptyCollector 0 ≠ getSnapshot emptyCollector 1 := by
  intro h
  exact absurd (congrArg Snapshot.ts h) (by decide)

/-- C10: a transcript file whose filesystem modification time predates
the cutoff is skipped in its entirety by the analytics file loop (the
same guard getTokenAnalytics uses), so none of its records — in-window
or not — reach any aggregate; concretely a stale file containing an
in-window message contributes nothing, and the reported total cost
stays 0. -/
theorem analyticsAgg_skips_stale_files :
    (∀ (cutoff : Int) (files : List TFile),
      analyticsAgg cutoff files =
        analyticsAgg cutoff (files.filter (fun f => ¬ f.mtimeMs < cutoff))) ∧
    analyticsAgg 1000 [staleFile] = zeroAgg ∧
    analyticsTotalCost 1000 [staleFile] = 0 := by
  refine ⟨?_, rfl, ?_⟩
  · intro cutoff files
    rw [analyticsAgg, analyticsAgg, analyticsAgg_foldl_skip]
  · rw [analyticsTotalCost,
      show analyticsAgg 1000 [staleFile] = zeroAgg from rfl]
    norm_num [zeroAgg, roundTo4]

/-- C1 (amended): an inbound `res` frame whose id has no pending entry
is a no-op — provided it is not one of the two handshake-style replies
that `_handleMessage` treats specially regardless of the pending map: an
ok reply whose payload is `hello-ok` (applies the snapshot and marks
agents online) or a failed reply carrying an error object (marks every
sharing agent offline).  Totality of `handleRes` models that the arm
raises no exception in any case. -/
theorem handleRes_unmatched_noop (c : Collector) (gwKey : String)
    (m : ResMsg) (now : Int)
    (h1 : ¬ (m.ok ∧ m.payloadType = some "hello-ok"))
    (h2 : ¬ (¬ m.ok ∧ m.errorMsg.isSome))
    (h3 : ∀ i ∈ c.pending, m.id ≠ some i) :
    handleRes c gwKey m now = c := by
  unfold handleRes
  cases hg : lookupK c.gateways gwKey with
  | none => rfl
  | some gw =>
    dsimp only
    rw [if_neg h1, if_neg h2]
    cases hid : m.id with
    | none => rfl
    | some i =>
      dsimp only
      rw [if_neg (fun hmem => h3 i hmem hid)]

/-- C1 witness: an ok, non-handshake `res` frame with an unknown id
leaves the collector untouched. -/
theorem handleRes_unmatched_noop_witness :
    handleRes collectorConnected "g" strayOkRes 7 = collectorConnected :=
  handleRes_unmatched_noop collectorConnected "g" strayOkRes 7 (by decide)
    (by decide) (by decide)

/-- C1 counterexample: the frame `{type:'res', id:'999', ok:false,
error:{message:'boom'}}` has no pending entry for `999`, yet handling it
mutates agent `a`'s record — its `error` field flips from `null` to
`'boom'` — so the claim's "no state mutation for any unmatched res
frame" is false on the code. -/
theorem handleRes_unmatched_mutates_counterexample :
    ¬ "999" ∈ collectorConnected.pending ∧
      (lookupK collectorConnected.state "a").map AgentView.error =
        some none ∧
      (lookupK (handleRes collectorConnected "g" lateErrorRes 7).state
          "a").map AgentView.error = some (some "boom") := by
  refine ⟨by decide, by decide, by decide⟩

/-- C7 (amended): on a socket `close`, every logical agent sharing the
link is marked offline in the same callback turn with the non-empty
reason `disconnected (code N)`, the link state becomes `disconnected`,
and the link's single reconnect-timer slot is set to fire exactly
10000 ms later (replacing any previously armed timer, so one reconnect
per drop).  On a socket `error`, every sharing agent is likewise marked
offline with the error message and the link state becomes `error`, but
no reconnect is scheduled by that handler — the reconnect relies on the
subsequent `close` event (see the counterexample). -/
theorem closeAndErrorHandlers (c : Collector) (k : String) (code : Nat)
    (now : Int) (msg : String) (gw : GwRec)
    (hg : lookupK c.gateways k = some gw) :
    (∀ a ∈ gw.agents, ∃ v,
        lookupK (handleClose c k code now).state a.id = some v ∧
          v.online = false ∧ v.error = some (closeReason code)) ∧
    closeReason code ≠ "" ∧
    (∃ g, lookupK (handleClose c k code now).gateways k = some g ∧
        g.reconnectTimer = some (now + 10000) ∧
        g.state = LinkState.disconnected) ∧
    (∀ a ∈ gw.agents, ∃ v,
        lookupK (handleError c k msg).state a.id = some v ∧
          v.online = false ∧ v.error = some msg) ∧
    (∃ g, lookupK (handleError c k msg).gateways k = some g ∧
        g.reconnectTimer = gw.reconnectTimer) := by
  have hclose : handleClose c k code now =
      { c with
        gateways :=
          setK (setK c.gateways k { gw with state := .disconnected }) k
            { gw with
              state := .disconnected,
              reconnectTimer := some (now + 10000) },
        state := updateAll c.state gw.agents
          (offlinePatch (closeReason code)) } := by
    unfold handleClose
    rw [hg]
    dsimp only
    unfold scheduleReconnect
    dsimp only
    rw [lookupK_setK_self]
  have herror : handleError c k msg =
      { c with
        gateways := setK c.gateways k { gw with state := .error },
        state := updateAll c.state gw.agents (offlinePatch msg) } := by
    unfold handleError
    rw [hg]
  refine ⟨?_, closeReason_ne_empty code, ?_, ?_, ?_⟩
  · intro a ha
    rw [hclose]
    exact updateAll_offline gw.agents c.state (closeReason code) a ha
  · refine ⟨{ gw with
        state := .disconnected,
        reconnectTimer := some (now + 10000) }, ?_, rfl, rfl⟩
    rw [hclose]
    exact lookupK_setK_self _ k _
  · intro a ha
    rw [herror]
    exact updateAll_offline gw.agents c.state msg a ha
  · refine ⟨{ gw with state := .error }, ?_, rfl⟩
    rw [herror]
    exact lookupK_setK_self _ k _

/-- C7 witness: dropping the link of `collectorConnected` with close
code 1006 at time 0 leaves the gateway disconnected with the reconnect
timer armed for time 10000, and agent `a` offline. -/
theorem closeAndErrorHandlers_witness :
    ∃ g, lookupK (handleClose collectorConnected "g" 1006 0).gateways
        "g" = some g ∧
      g.reconnectTimer = some (0 + 10000) ∧
      g.state = LinkState.disconnected :=
  (closeAndErrorHandlers collectorConnected "g" 1006 0 "boom" _ rfl).2.2.1

/-- C7 counterexample: a socket `error` event marks the sharing agent
offline with reason `boom`, yet arms no reconnect timer — the
reconnect-timer slot of the link stays `none`, so "a reconnect is
scheduled on every close or error event" is false on the code. -/
theorem errorHandler_no_reconnect_counterexample :
    (lookupK (handleError collectorConnected "g" "boom").state "a").map
        AgentView.online = some false ∧
      (lookupK (handleError collectorConnected "g" "boom").state "a").map
        AgentView.error = some (some "boom") ∧
      (lookupK (handleError collectorConnected "g" "boom").gateways
          "g").map GwRec.reconnectTimer = some none := by
  refine ⟨by decide, by decide, by decide⟩

theorem lookupK_filter_none {β : Type} {l : List (String × β)} {k : String}
    (P : String × β → Bool) (h : lookupK l k = none) :
    lookupK (l.filter P) k = none := by
  induction l with
  | nil => rfl
  | cons p t ih =>
    obtain ⟨k₀, v₀⟩ := p
    by_cases h₀ : k₀ = k
    · rw [lookupK, if_pos h₀] at h
      cases h
    · rw [lookupK, if_neg h₀] at h
      by_cases hp : P (k₀, v₀)
      · simp only [List.filter_cons, if_pos hp, hp, lookupK, if_neg h₀]
        exact ih h
      · simp only [List.filter_cons, hp, Bool.false_eq_true, if_false]
        exact ih h

/-- C9: after every configuration load, exactly one state record exists
per configured agent id (under the standing invariant that the state
map's keys are distinct), and an agent that had no record before the
load gets exactly the freshly initialised record, whose data fields
(`lastSeen`, `health`, `sessions`, `usage`, `heartbeat`, `channels`,
`cron`, `error`) are all null and whose `online` flag is false — so a
complete record is readable for every configured agent even before the
first successful connect. -/
theorem loadConfig_state_records (c : Collector) (cfg : List AgentCfg)
    (hnd : (keysOf c.state).Nodup) :
    (∀ a ∈ cfg, (keysOf (loadConfig c cfg).state).count a.id = 1) ∧
    ((cfg.map AgentCfg.id).Nodup →
      ∀ a ∈ cfg, lookupK c.state a.id = none →
        lookupK (loadConfig c cfg).state a.id = some (initView a)) ∧
    (∀ a : AgentCfg, (initView a).online = false ∧
      (initView a).lastSeen = none ∧ (initView a).health = none ∧
      (initView a).sessions = none ∧ (initView a).usage = none ∧
      (initView a).heartbeat = none ∧ (initView a).channels = none ∧
      (initView a).cron = none ∧ (initView a).error = none) := by
  have hredst := loadConfig_state_eq c cfg
  have hpr_nodup :
      (keysOf (c.state.filter
        (fun p =>
          ¬ p.1 ∈ (keysOf c.agents).filter
            (fun i => ¬ i ∈ cfg.map AgentCfg.id)))).Nodup :=
    nodup_keysOf_filter _ _ hnd
  have hfin_nodup : (keysOf (loadConfig c cfg).state).Nodup := by
    rw [hredst]
    exact stFold_nodup cfg _ hpr_nodup
  refine ⟨?_, ?_, ?_⟩
  · intro a ha
    have hlook : ∃ v, lookupK (loadConfig c cfg).state a.id = some v := by
      rw [hredst]
      cases hcs : lookupK
          (c.state.filter
            (fun p =>
              ¬ p.1 ∈ (keysOf c.agents).filter
                (fun i => ¬ i ∈ cfg.map AgentCfg.id))) a.id with
      | some v => exact ⟨v, stFold_lookup_some cfg _ _ _ hcs⟩
      | none =>
        rw [stFold_lookup_none cfg _ _ hcs]
        have hsome : (cfg.find? (fun x => x.id = a.id)).isSome := by
          rw [List.find?_isSome]
          exact ⟨a, ha, by simp⟩
        obtain ⟨b, hb⟩ := Option.isSome_iff_exists.mp hsome
        exact ⟨initView b, by rw [hb]; rfl⟩
    obtain ⟨v, hv⟩ := hlook
    exact List.count_eq_one_of_mem hfin_nodup ((mem_keysOf_iff _ _).mpr ⟨v, hv⟩)
  · intro hids a ha hnone
    rw [hredst]
    have hprn : lookupK
        (c.state.filter
          (fun p =>
            ¬ p.1 ∈ (keysOf c.agents).filter
              (fun i => ¬ i ∈ cfg.map AgentCfg.id))) a.id = none :=
      lookupK_filter_none _ hnone
    rw [stFold_lookup_none cfg _ _ hprn, find?_eq_of_nodup_ids cfg a hids ha]
    rfl
  · intro a
    exact ⟨rfl, rfl, rfl, rfl, rfl, rfl, rfl, rfl, rfl⟩

/-- C9 witness: loading the one-agent config `[agentA]` into a fresh
collector yields exactly one state record keyed `a`, and that record is
the all-null `initView agentA`. -/
theorem loadConfig_state_records_witness :
    (keysOf (loadConfig emptyCollector [agentA]).state).count "a" = 1 ∧
      lookupK (loadConfig emptyCollector [agentA]).state "a" =
        some (initView agentA) :=
  ⟨(loadConfig_state_records emptyCollector [agentA] (by decide)).1 agentA
      (by decide),
    (loadConfig_state_records emptyCollector [agentA] (by decide)).2.1
      (by decide) agentA (by decide) rfl⟩

/-- C2 (amended): after every configuration load (given the standing
invariant that gateway-map keys are distinct), the number of gateway
records is at most the number of configured agents and equals the
number of distinct gateway keys `host:port:<first 8 token characters>`;
identical (host, port, token) triples always give the same key; and for
each configured agent the gateway map holds exactly the record at its
key, whose agent list is precisely the configured agents sharing that
key — so agents with identical credentials share one link.  (The
unamended claim counts distinct full (host, port, token) triples, which
overcounts when tokens differ only after their 8-character prefix — see
the counterexample.) -/
theorem loadConfig_gateway_sharing (c : Collector) (cfg : List AgentCfg)
    (hnd : (keysOf c.gateways).Nodup) :
    (loadConfig c cfg).gateways.length ≤ cfg.length ∧
    (loadConfig c cfg).gateways.length = (cfg.map gwKeyOf).dedup.length ∧
    (∀ a b : AgentCfg, a.host = b.host → a.port = b.port →
      a.token = b.token → gwKeyOf a = gwKeyOf b) ∧
    ∀ a ∈ cfg, ∃ g,
      lookupK (loadConfig c cfg).gateways (gwKeyOf a) = some g ∧
        g.agents = cfg.filter (fun x => gwKeyOf x = gwKeyOf a) ∧
        a ∈ g.agents := by
  have hred := loadConfig_gateways_eq c cfg
  have hbase_clear : ∀ k g,
      lookupK (c.gateways.map (fun p => (p.1, clearAgents p.2))) k =
        some g → g.agents = ([] : List AgentCfg) := by
    intro k g hg
    rw [lookupK_mapVal] at hg
    obtain ⟨g₀, hg₀, hfg⟩ := Option.map_eq_some'.mp hg
    rw [← hfg]
    rfl
  have hbase_nodup :
      (keysOf (c.gateways.map (fun p => (p.1, clearAgents p.2)))).Nodup := by
    rw [keysOf_mapVal]
    exact hnd
  have hG3agents : ∀ k g,
      lookupK
        (cfg.foldl addAgentGw
          (c.gateways.map (fun p => (p.1, clearAgents p.2)))) k =
        some g → g.agents = cfg.filter (fun x => gwKeyOf x = k) := by
    intro k g hg
    simpa using
      gwFold_agents cfg _ (fun _ => []) hbase_clear (fun _ _ => rfl) k g hg
  have hG3nodup := gwFold_keys_nodup cfg _ hbase_nodup
  have hfin_lookup : ∀ k,
      lookupK (loadConfig c cfg).gateways k =
        (lookupK
          (cfg.foldl addAgentGw
            (c.gateways.map (fun p => (p.1, clearAgents p.2)))) k).bind
          (fun g => if !g.agents.isEmpty then some g else none) := by
    intro k
    rw [hred]
    exact lookupK_filter_val _ (fun g => !g.agents.isEmpty) k hG3nodup
  have hshare : ∀ a ∈ cfg, ∃ g,
      lookupK (loadConfig c cfg).gateways (gwKeyOf a) = some g ∧
        g.agents = cfg.filter (fun x => gwKeyOf x = gwKeyOf a) ∧
        a ∈ g.agents := by
    intro a ha
    have hkey : gwKeyOf a ∈ keysOf
        (cfg.foldl addAgentGw
          (c.gateways.map (fun p => (p.1, clearAgents p.2)))) :=
      (gwFold_keys_mem cfg _ _).mpr (Or.inr (List.mem_map_of_mem gwKeyOf ha))
    obtain ⟨g, hg⟩ := (mem_keysOf_iff _ _).mp hkey
    have hfil := hG3agents _ g hg
    have hane : a ∈ g.agents := by
      rw [hfil]
      exact List.mem_filter.mpr ⟨ha, by simp⟩
    refine ⟨g, ?_, hfil, hane⟩
    rw [hfin_lookup, hg]
    simpa using List.ne_nil_of_mem hane
  have hmem : ∀ k,
      k ∈ keysOf (loadConfig c cfg).gateways ↔ k ∈ cfg.map gwKeyOf := by
    intro k
    constructor
    · intro hkmem
      obtain ⟨g, hg⟩ := (mem_keysOf_iff _ _).mp hkmem
      rw [hfin_lookup] at hg
      cases hl : lookupK
          (cfg.foldl addAgentGw
            (c.gateways.map (fun p => (p.1, clearAgents p.2)))) k with
      | none =>
        rw [hl] at hg
        cases hg
      | some g₀ =>
        rw [hl] at hg
        by_cases he : g₀.agents.isEmpty
        · have hnil : g₀.agents = [] := List.isEmpty_iff.mp he
          simp [hnil] at hg
        · have hne0 : g₀.agents ≠ [] := by
            intro hnil
            rw [hnil] at he
            exact he rfl
          rw [hG3agents _ _ hl] at hne0
          obtain ⟨x, hx⟩ := List.exists_mem_of_ne_nil _ hne0
          have hx' := List.mem_filter.mp hx
          exact List.mem_map.mpr ⟨x, hx'.1, of_decide_eq_true hx'.2⟩
    · intro hk
      obtain ⟨a, ha, hka⟩ := List.mem_map.mp hk
      obtain ⟨g, hg, _, _⟩ := hshare a ha
      rw [hka] at hg
      exact (mem_keysOf_iff _ _).mpr ⟨g, hg⟩
  have hfin_nodup : (keysOf (loadConfig c cfg).gateways).Nodup := by
    rw [hred]
    exact nodup_keysOf_filter _ _ hG3nodup
  have hperm :
      List.Perm (keysOf (loadConfig c cfg).gateways)
        (cfg.map gwKeyOf).dedup := by
    refine (List.perm_ext_iff_of_nodup hfin_nodup (List.nodup_dedup _)).mpr ?_
    intro x
    rw [List.mem_dedup]
    exact hmem x
  have hlen :
      (loadConfig c cfg).gateways.length =
        (cfg.map gwKeyOf).dedup.length := by
    have h1 : (keysOf (loadConfig c cfg).gateways).length =
        (loadConfig c cfg).gateways.length := List.length_map _ _
    rw [← h1, hperm.length_eq]
  have hle : (loadConfig c cfg).gateways.length ≤ cfg.length := by
    rw [hlen]
    calc ((cfg.map gwKeyOf).dedup).length
        ≤ (cfg.map gwKeyOf).length := (List.dedup_sublist _).length_le
      _ = cfg.length := List.length_map _ _
  exact ⟨hle, hlen,
    fun a b h1 h2 h3 => by simp [gwKeyOf, h1, h2, h3], hshare⟩

/-- C2 witness: loading two agents with identical (host, port, token)
into a fresh collector creates gateways matching the distinct-key count
(one), and both agents land in the single gateway record at their
shared key. -/
theorem loadConfig_gateway_sharing_witness :
    (loadConfig emptyCollector [agentA, agentB]).gateways.length =
        ([agentA, agentB].map gwKeyOf).dedup.length ∧
      ∃ g, lookupK (loadConfig emptyCollector [agentA, agentB]).gateways
          (gwKeyOf agentA) = some g ∧
        g.agents = [agentA, agentB].filter
          (fun x => gwKeyOf x = gwKeyOf agentA) ∧
        agentA ∈ g.agents :=
  ⟨(loadConfig_gateway_sharing emptyCollector [agentA, agentB]
      (by decide)).2.1,
    (loadConfig_gateway_sharing emptyCollector [agentA, agentB]
      (by decide)).2.2.2 agentA (by decide)⟩

/-- C2 counterexample: two agents on the same host and port whose
tokens `aaaaaaaaX` and `aaaaaaaaY` differ only after the eighth
character form two distinct (host, port, token) triples yet share one
gateway key, so exactly one gateway record is created — the claimed
equality with the count of distinct full triples (2) fails. -/
theorem loadConfig_tokenTrunc_counterexample :
    (loadConfig emptyCollector [agentT1, agentT2]).gateways.length = 1 ∧
      ([agentT1, agentT2].map
        (fun a => (a.host, a.port, a.token))).dedup.length = 2 := by
  refine ⟨by decide, by decide⟩
